import Mathlib

/-!
# Cedar system-metrics identity, ingestion service and REST service

A shallow embedding of

* `model/system_metrics.go` : `SystemMetricsInfo` and its `ID` method,
* `rest/service.go` : `Service.Validate` and `Service.Start`,
* the system-metrics ingestion service (`AddSystemMetrics`,
  `StreamSystemMetrics`), whose implementation is not among the source files
  and is modelled from the written specification,

followed by the theorems that settle the claims C1 .. C10.

Go strings are byte strings, so they are embedded as lists of bytes.  Go `int`
values are embedded as `Int`; none of the embedded code does arithmetic on
them, so no wrap-around can occur, and every 64-bit value is an `Int`.
-/

namespace Cedar

/-! ## Go strings -/

/-- A Go string: an immutable sequence of bytes. -/
abbrev GoString := List UInt8

/-- The Go string holding the UTF-8 encoding of a literal. -/
def str (s : String) : GoString := s.toUTF8.data.toList

/-- The ASCII digit for `d < 10`. -/
def digitByte (d : Nat) : UInt8 := UInt8.ofNat (48 + d)

/-- Decimal digits of a natural number, most significant first; the fuel
bounds the number of digits. -/
def decimalFuel : Nat → Nat → GoString
  | 0, _ => []
  | f + 1, n =>
    if n < 10 then [digitByte n] else decimalFuel f (n / 10) ++ [digitByte (n % 10)]

/-- Decimal form of a natural number (`strconv.FormatUint(n, 10)`). -/
def decimalNat (n : Nat) : GoString := decimalFuel (n + 1) n

/-- The result of `fmt.Sprint(i)` for a Go `int`: the decimal form, with a leading
`-` (byte 45) for negative values. -/
def Sprint (i : Int) : GoString :=
  if i < 0 then 45 :: decimalNat i.natAbs else decimalNat i.natAbs

/-- Value of a string of decimal digits. -/
def digitsValue (bs : GoString) : Nat := bs.foldl (fun a b => 10 * a + (b.toNat - 48)) 0

/-! ## SHA-1 (FIPS 180-4), the function behind Go's `crypto/sha1` -/

namespace SHA1

/-- Reduction to a 32-bit word. -/
def w32 (x : Nat) : Nat := x % 2 ^ 32

/-- Rotate a 32-bit word left by `n` bits. -/
def rotl (n x : Nat) : Nat := w32 ((x <<< n) ||| (x >>> (32 - n)))

/-- Bitwise complement of a 32-bit word. -/
def not32 (x : Nat) : Nat := x ^^^ 0xFFFFFFFF

/-- The chaining value: five 32-bit words. -/
structure State where
  h0 : Nat
  h1 : Nat
  h2 : Nat
  h3 : Nat
  h4 : Nat
  deriving DecidableEq, Repr

/-- The initial chaining value. -/
def init : State :=
  { h0 := 0x67452301, h1 := 0xEFCDAB89, h2 := 0x98BADCFE, h3 := 0x10325476, h4 := 0xC3D2E1F0 }

/-- Big-endian bytes of the low `k` bytes of `x`. -/
def beBytes : Nat → Nat → List UInt8
  | 0, _ => []
  | k + 1, x => UInt8.ofNat ((x >>> (8 * k)) % 256) :: beBytes k x

/-- Message padding: a `0x80` byte, zero bytes up to 56 modulo 64, then the
message length in bits as a 64-bit big-endian integer. -/
def pad (msg : List UInt8) : List UInt8 :=
  let l := msg.length
  msg ++ [0x80] ++ List.replicate ((119 - l % 64) % 64) 0 ++ beBytes 8 ((8 * l) % 2 ^ 64)

/-- Big-endian 32-bit words of a byte string (a trailing partial word is dropped). -/
def toWords : List UInt8 → List Nat
  | b0 :: b1 :: b2 :: b3 :: rest =>
    (b0.toNat * 2 ^ 24 + b1.toNat * 2 ^ 16 + b2.toNat * 2 ^ 8 + b3.toNat) :: toWords rest
  | _ => []

/-- Extend the message schedule by `n` words; the schedule is kept newest first. -/
def extend : Nat → List Nat → List Nat
  | 0, ws => ws
  | n + 1, ws =>
    extend n
      (rotl 1 (ws.getD 2 0 ^^^ ws.getD 7 0 ^^^ ws.getD 13 0 ^^^ ws.getD 15 0) :: ws)

/-- The 80-word message schedule of a 16-word block. -/
def schedule (block : List Nat) : List Nat := (extend 64 block.reverse).reverse

/-- The round function `f_t`. -/
def f (t b c d : Nat) : Nat :=
  if t < 20 then (b &&& c) ||| (not32 b &&& d)
  else if t < 40 then b ^^^ c ^^^ d
  else if t < 60 then (b &&& c) ||| (b &&& d) ||| (c &&& d)
  else b ^^^ c ^^^ d

/-- The round constant `K_t`. -/
def k (t : Nat) : Nat :=
  if t < 20 then 0x5A827999
  else if t < 40 then 0x6ED9EBA1
  else if t < 60 then 0x8F1BBCDC
  else 0xCA62C1D6

/-- Round `t` on the working variables, with schedule word `w`. -/
def round (s : State) (t w : Nat) : State :=
  { h0 := w32 (rotl 5 s.h0 + f t s.h1 s.h2 s.h3 + s.h4 + k t + w)
    h1 := s.h0
    h2 := rotl 30 s.h1
    h3 := s.h2
    h4 := s.h3 }

/-- Run the rounds for the schedule words `ws`, starting at round `t`. -/
def rounds : State → Nat → List Nat → State
  | s, _, [] => s
  | s, t, w :: ws => rounds (round s t w) (t + 1) ws

/-- Compress one 16-word block into the chaining value. -/
def compress (s : State) (block : List Nat) : State :=
  let r := rounds s 0 (schedule block)
  { h0 := w32 (s.h0 + r.h0), h1 := w32 (s.h1 + r.h1), h2 := w32 (s.h2 + r.h2),
    h3 := w32 (s.h3 + r.h3), h4 := w32 (s.h4 + r.h4) }

/-- Compress `n` consecutive 16-word blocks. -/
def blocks : Nat → State → List Nat → State
  | 0, s, _ => s
  | n + 1, s, ws => blocks n (compress s (ws.take 16)) (ws.drop 16)

/-- The 20-byte digest of a chaining value. -/
def digest (s : State) : List UInt8 :=
  beBytes 4 s.h0 ++ beBytes 4 s.h1 ++ beBytes 4 s.h2 ++ beBytes 4 s.h3 ++ beBytes 4 s.h4

/-- SHA-1 of a byte string. -/
def sum (msg : List UInt8) : List UInt8 :=
  let ws := toWords (pad msg)
  digest (blocks (ws.length / 16) init ws)

end SHA1

/-! ## `fmt.Sprintf("%x", bytes)` -/

/-- The lowercase hexadecimal digit for `n < 16`. -/
def hexDigit (n : Nat) : UInt8 := if n < 10 then UInt8.ofNat (48 + n) else UInt8.ofNat (87 + n)

/-- Lowercase hexadecimal encoding of a byte slice, two digits per byte. -/
def hex : List UInt8 → GoString
  | [] => []
  | b :: bs => hexDigit (b.toNat / 16) :: hexDigit (b.toNat % 16) :: hex bs

/-- A byte is one of `0`-`9`, `a`-`f`. -/
def isLowerHex (b : UInt8) : Prop := (48 ≤ b.toNat ∧ b.toNat ≤ 57) ∨ (97 ≤ b.toNat ∧ b.toNat ≤ 102)

instance (b : UInt8) : Decidable (isLowerHex b) := by unfold isLowerHex; infer_instance

/-! ## `model/system_metrics.go` -/

/-- Outcome of a call that can panic: a returned value, or a panic carrying
its message. -/
inductive GoResult (α : Type) where
  | returned (a : α)
  | panicked (msg : String)
  deriving DecidableEq, Repr

/-- Information unique to the system metrics for a task. -/
structure SystemMetricsInfo where
  Project : GoString := []
  Version : GoString := []
  Variant : GoString := []
  TaskName : GoString := []
  TaskID : GoString := []
  Execution : Int := 0
  Mainline : Bool := false
  Schema : Int := 0
  deriving DecidableEq, Repr

/-- A running hash (`hash.Hash`): the bytes written to it so far. -/
abbrev Hash := List UInt8

/-- The call `io.WriteString(hash, s)`: feed the bytes of `s` to the hash. -/
def WriteString (hash : Hash) (s : GoString) : Hash := hash ++ s

/-- The byte string that `ID` has written to the hash when it reaches
`hash.Sum(nil)`, for schema 0. -/
def hashInput (id : SystemMetricsInfo) : Hash :=
  let hash : Hash := []
  let hash := WriteString hash id.Project
  let hash := WriteString hash id.Version
  let hash := WriteString hash id.Variant
  let hash := WriteString hash id.TaskName
  let hash := WriteString hash id.TaskID
  let hash := WriteString hash (Sprint id.Execution)
  hash

/-- The method `SystemMetricsInfo.ID`: creates a unique hash for the system
metrics for a task. -/
def ID (id : SystemMetricsInfo) : GoResult GoString :=
  if id.Schema = 0 then
    GoResult.returned (hex (SHA1.sum (hashInput id)))
  else
    GoResult.panicked "unsupported schema"


/-- Modelled from the spec: the artifact descriptor of a record (the type of
`SystemMetrics.Artifact`, declared outside the given sources): a
storage-backend kind, a key prefix unique to the record, and the ordered
sequence of chunk keys written so far. -/
structure ArtifactInfo where
  Kind : GoString := []
  Prefix : GoString := []
  Chunks : List GoString := []
  deriving DecidableEq, Repr

/-- The type `SystemMetrics`: metadata for the system metrics data of a task
execution (the persisted fields; timestamps are instants on an integer clock,
zero until set). -/
structure SystemMetrics where
  ID : GoString := []
  Info : SystemMetricsInfo := {}
  CreatedAt : Int := 0
  CompletedAt : Int := 0
  Artifact : ArtifactInfo := {}
  deriving DecidableEq, Repr

/-! ## The ingestion service

The implementation of the RPC service is not among the source files (only its
test is), so the service, the two stores it talks to and its errors are
modelled from the specification.  The stores are in-memory implementations of
the capability interfaces: an association list from keys to payloads, and a
list of record documents keyed by `ID`.  Both can fail: the world names the
keys whose `Put` fails and the keys whose `AppendChunk` fails.  Every write
step draws a key from the monotonic sequence, so a key stands for one write
attempt, and any pattern of failing attempts is a choice of these keys. -/

/-- Modelled from the spec: the error categories of the ingestion service, as
listed in the error taxonomy. -/
inductive IngestError where
  | InvalidEnvironment
  | InvalidConfiguration
  | RecordNotFound
  | MixedRecordIDs
  | EmptyStream
  | UnsupportedSchema
  | StorageWriteFailed
  deriving DecidableEq, Repr

/-- Modelled from the spec: one `{id, payload}` chunk message (the test builds
it as `SystemMetricsData{Id, Data}`; its declaration is not among the
sources). -/
structure SystemMetricsData where
  Id : GoString
  Data : List UInt8
  deriving DecidableEq, Repr

/-- Modelled from the spec: everything an ingestion call can read or change:
whether the serving environment is valid, the bucket configuration for system
metrics (`conf.Bucket.SystemMetricsBucket` in the test), the Metadata Store,
the Blob Store, the monotonic sequence from which chunk keys are generated,
and the faults of the two stores: the keys at which a blob write fails and the
keys whose append to a chunk list fails. -/
structure World where
  envValid : Bool
  SystemMetricsBucket : GoString
  records : List SystemMetrics
  blobs : List (GoString × List UInt8)
  nextSeq : Nat
  putFaults : List GoString := []
  appendFaults : List GoString := []
  deriving DecidableEq, Repr

/-- Modelled from the spec: Metadata Store `Load(ctx, id)`: the record with the
given id; it fails (`none`) when no such id exists. -/
def Load (w : World) (id : GoString) : Option SystemMetrics :=
  w.records.find? (fun r => decide (r.ID = id))

/-- The record with the given keys added at the end of its chunk list. -/
def appendChunks (r : SystemMetrics) (keys : List GoString) : SystemMetrics :=
  { r with Artifact := { r.Artifact with Chunks := r.Artifact.Chunks ++ keys } }

/-- Modelled from the spec: Metadata Store `AppendChunk`: appends one key at
the end of `artifact.chunks` of the record with the given id; it fails
(`none`) when there is no such record, and when the store fails on this
append. -/
def AppendChunk (w : World) (id : GoString) (chunkKey : GoString) : Option World :=
  match Load w id with
  | none => none
  | some _ =>
    if chunkKey ∈ w.appendFaults then none
    else
      some { w with
        records := w.records.map (fun r =>
          if r.ID = id then appendChunks r [chunkKey] else r) }

/-- Modelled from the spec: Blob Store `Put`: writes the payload at the key;
overwriting an existing key is permitted; it fails (`none`), writing nothing,
when the store fails on this write. -/
def Put (w : World) (key : GoString) (payload : List UInt8) : Option World :=
  if key ∈ w.putFaults then none
  else some { w with blobs := (key, payload) :: w.blobs }

/-- Modelled from the spec: Blob Store `Get`: retrieves the payload last
written at the key. -/
def Get (w : World) (key : GoString) : Option (List UInt8) :=
  (w.blobs.find? (fun kv => decide (kv.1 = key))).map (fun kv => kv.2)

/-- Modelled from the spec: chunk key generation: keys have the form
`{artifact.prefix}/{monotonic sequence}`; byte 47 is `/`. -/
def chunkKey (pfx : GoString) (seq : Nat) : GoString :=
  pfx ++ 47 :: decimalNat seq

/-- Modelled from the spec: the write step of the unary path: generate a chunk
key, `Put` the payload, then `AppendChunk`; a failure of either step is
`StorageWriteFailed`, and the key is appended only after the payload was
stored. -/
def writeChunk (w : World) (id pfx : GoString) (data : List UInt8) :
    Except IngestError GoString × World :=
  let key := chunkKey pfx w.nextSeq
  let w1 := { w with nextSeq := w.nextSeq + 1 }
  match Put w1 key data with
  | none => (.error .StorageWriteFailed, w1)
  | some w2 =>
    match AppendChunk w2 id key with
    | none => (.error .StorageWriteFailed, w2)
    | some w3 => (.ok id, w3)

/-- The world once a payload is stored under `key` and `key` is appended to the
chunk list of the record `id`. -/
def written (w : World) (id key : GoString) (data : List UInt8) : World :=
  { envValid := w.envValid
    SystemMetricsBucket := w.SystemMetricsBucket
    records := w.records.map (fun r => if r.ID = id then appendChunks r [key] else r)
    blobs := (key, data) :: w.blobs
    nextSeq := w.nextSeq + 1
    putFaults := w.putFaults
    appendFaults := w.appendFaults }

/-- The world once the payloads `ds` are stored, one after the other, for the
record `id` whose key prefix is `pfx`. -/
def writtenAll (w : World) (id pfx : GoString) : List (List UInt8) → World
  | [] => w
  | d :: ds => writtenAll (written w id (chunkKey pfx w.nextSeq) d) id pfx ds

/-- Modelled from the spec: the three preconditions of an ingestion call,
checked in order: a valid environment (else `InvalidEnvironment`), a non-empty
system-metrics bucket configuration (else `InvalidConfiguration`), and a
successful `Load(id)` (else `RecordNotFound`); on success the loaded record. -/
def checkPreconditions (w : World) (id : GoString) : Except IngestError SystemMetrics :=
  if w.envValid = false then .error .InvalidEnvironment
  else if w.SystemMetricsBucket = [] then .error .InvalidConfiguration
  else
    match Load w id with
    | none => .error .RecordNotFound
    | some r => .ok r

/-- Modelled from the spec: the unary RPC `AddSystemMetrics`: preconditions
first, before any write; if all pass, the write step; the record id is
returned on success.  The result is the response (the record id, or an error
and no response) and the world afterwards. -/
def AddSystemMetrics (w : World) (chunk : SystemMetricsData) :
    Except IngestError GoString × World :=
  match checkPreconditions w chunk.Id with
  | .error e => (.error e, w)
  | .ok r => writeChunk w r.ID r.Artifact.Prefix chunk.Data

/-- Modelled from the spec: the state of one stream session:
`AwaitingFirstChunk`, `Streaming` with the bound record id (and the key prefix
recorded on that record), and the aborted terminal state with its cause. -/
inductive StreamState where
  | AwaitingFirstChunk
  | Streaming (bound : GoString) (pfx : GoString)
  | Aborted (cause : IngestError)
  deriving DecidableEq, Repr

/-- Modelled from the spec: receipt of one chunk by a stream session: the first
chunk runs the three preconditions against its id and, on success, binds the
stream to it; a later chunk whose id is not the bound id aborts the stream
with `MixedRecordIDs` before anything is written for it; each valid chunk is
written and appended as in the unary path; after an abort no further chunk is
processed. -/
def recvChunk (sw : StreamState × World) (chunk : SystemMetricsData) : StreamState × World :=
  match sw with
  | (.AwaitingFirstChunk, w) =>
    match checkPreconditions w chunk.Id with
    | .error e => (.Aborted e, w)
    | .ok r =>
      match writeChunk w r.ID r.Artifact.Prefix chunk.Data with
      | (.error e, w1) => (.Aborted e, w1)
      | (.ok _, w1) => (.Streaming r.ID r.Artifact.Prefix, w1)
  | (.Streaming bound pfx, w) =>
    if chunk.Id ≠ bound then (.Aborted .MixedRecordIDs, w)
    else
      match writeChunk w bound pfx chunk.Data with
      | (.error e, w1) => (.Aborted e, w1)
      | (.ok _, w1) => (.Streaming bound pfx, w1)
  | (.Aborted e, w) => (.Aborted e, w)

/-- Modelled from the spec: the response when the client closes the send side:
the bound record id; `EmptyStream` if no chunk was ever received; the cause of
the abort for an aborted stream. -/
def closeSend : StreamState → Except IngestError GoString
  | .AwaitingFirstChunk => .error .EmptyStream
  | .Streaming bound _ => .ok bound
  | .Aborted e => .error e

/-- Modelled from the spec: the streaming RPC `StreamSystemMetrics` on the
chunks the client sends before closing: chunks are processed strictly in
arrival order, one after the other, and a single response is sent on close.
The result is the response and the world afterwards. -/
def StreamSystemMetrics (w : World) (chunks : List SystemMetricsData) :
    Except IngestError GoString × World :=
  let sw := chunks.foldl recvChunk (.AwaitingFirstChunk, w)
  (closeSend sw.1, sw.2)

/-- A sequence of unary calls, one after the other: the responses in call
order and the world afterwards. -/
def unaryCalls : World → List SystemMetricsData → List (Except IngestError GoString) × World
  | w, [] => ([], w)
  | w, c :: cs =>
    let r := AddSystemMetrics w c
    let rest := unaryCalls r.2 cs
    (r.1 :: rest.1, rest.2)

/-- The keys generated for `n` consecutive chunks of one record, starting at
sequence number `seq`. -/
def chunkKeys (pfx : GoString) (seq : Nat) : Nat → List GoString
  | 0 => []
  | n + 1 => chunkKey pfx seq :: chunkKeys pfx (seq + 1) n

/-- The next `n` write steps for a record with key prefix `pfx` succeed: none
of their keys is one at which `Put` or `AppendChunk` fails. -/
def writesSucceed (w : World) (pfx : GoString) (n : Nat) : Prop :=
  ∀ key ∈ chunkKeys pfx w.nextSeq n, key ∉ w.putFaults ∧ key ∉ w.appendFaults

instance (w : World) (pfx : GoString) (n : Nat) : Decidable (writesSucceed w pfx n) :=
  inferInstanceAs
    (Decidable (∀ key ∈ chunkKeys pfx w.nextSeq n, key ∉ w.putFaults ∧ key ∉ w.appendFaults))

/-- The chunk list of the record with the given id (empty if there is none). -/
def chunksOf (w : World) (id : GoString) : List GoString :=
  match Load w id with
  | none => []
  | some r => r.Artifact.Chunks

/-! ## `rest/service.go`

The queue (`amboy.Queue`) and the application (`*gimlet.APIApp`) are values of
external libraries: they are embedded as handles of arbitrary types, a nil
handle being `none`, and what the external calls return is a parameter of the
model.  Every external call is recorded, in order, in the list of calls of the
outcome. -/

/-- A Go `error` built with `github.com/pkg/errors`. -/
inductive GoError where
  | New (msg : String)
  | Wrap (cause : GoError) (msg : String)
  | WithStack (cause : GoError)
  deriving DecidableEq, Repr

/-- The message of an error (its `Error()` method). -/
def GoError.Error : GoError → String
  | .New msg => msg
  | .Wrap cause msg => msg ++ ": " ++ cause.Error
  | .WithStack cause => cause.Error

/-- A call made on the queue, the application or the logger. -/
inductive Call where
  | GetQueue
  | NewApp
  | SetDefaultVersion (version : Int)
  | SetPort (port : Int)
  | AddRoute (route : String) (version : Int) (method : String) (handler : String)
  | QueueStart
  | Resolve
  | Noticef (msg : String)
  deriving DecidableEq, Repr

/-- What the external calls return: `sink.GetQueue()` (a queue, possibly nil,
and an error, possibly nil), `gimlet.NewApp()`, `app.SetPort(port)`,
`queue.Start(ctx)` and `app.Resolve()`. -/
structure Externals (Queue App : Type) where
  GetQueue : Option Queue × Option GoError
  NewApp : App
  SetPort : App → Int → Option GoError
  QueueStart : Queue → Option GoError
  Resolve : App → Option GoError

/-- The type `rest.Service`. -/
structure Service (Queue App : Type) where
  Port : Int
  queue : Option Queue
  app : Option App

/-- What a method of `Service` returns and leaves behind: the returned error
(`none` for nil), the service afterwards, and the external calls it made. -/
structure Outcome (Queue App : Type) where
  err : Option GoError
  service : Service Queue App
  calls : List Call

/-- The part of `Service.Validate` from `if s.app == nil` on, reached once the
queue is set. -/
def validateApp {Queue App : Type} (x : Externals Queue App) (s : Service Queue App)
    (calls : List Call) : Outcome Queue App :=
  let r : App × List Call :=
    match s.app with
    | none => (x.NewApp, calls ++ [.NewApp, .SetDefaultVersion 1])
    | some a => (a, calls)
  let s := { s with app := some r.1 }
  let s := if s.Port = 0 then { s with Port := 3000 } else s
  match x.SetPort r.1 s.Port with
  | some err => ⟨some (.WithStack err), s, r.2 ++ [.SetPort s.Port]⟩
  | none => ⟨none, s, r.2 ++ [.SetPort s.Port]⟩

/-- The method `Service.Validate`. -/
def Validate {Queue App : Type} (x : Externals Queue App) (s : Service Queue App) :
    Outcome Queue App :=
  match s.queue with
  | none =>
    let s := { s with queue := x.GetQueue.1 }
    match x.GetQueue.2 with
    | some err => ⟨some (.Wrap err "problem getting queue"), s, [.GetQueue]⟩
    | none =>
      match s.queue with
      | none => ⟨some (.New "no queue defined"), s, [.GetQueue]⟩
      | some _ => validateApp x s [.GetQueue]
  | some _ => validateApp x s []

/-- The method `Service.addRoutes`: the routes added to the application, in order. -/
def addRoutes : List Call :=
  [ .AddRoute "/status" 1 "GET" "statusHandler",
    .AddRoute "/status/events/\x7blevel\x7d" 1 "GET" "getSystemEvents",
    .AddRoute "/simple_log/\x7bid\x7d" 1 "POST" "simpleLogInjestion",
    .AddRoute "/simple_log/\x7bid\x7d" 1 "GET" "simpleLogRetrieval",
    .AddRoute "/simple_log/\x7bid\x7d/text" 1 "GET" "simpleLogGetText",
    .AddRoute "/system_info" 1 "POST" "recieveSystemInfo",
    .AddRoute "/system_info/host/\x7bhost\x7d" 1 "POST" "fetchSystemInfo",
    .AddRoute "/depgraph/\x7bid\x7d" 1 "POST" "createDepGraph",
    .AddRoute "/depgraph/\x7bid\x7d" 1 "GET" "resolveDepGraph",
    .AddRoute "/depgraph/\x7bid\x7d/nodes" 1 "POST" "addDepGraphNodes",
    .AddRoute "/depgraph/\x7bid\x7d/nodes" 1 "GET" "getDepGraphNodes",
    .AddRoute "/depgraph/\x7bid\x7d/edges" 1 "POST" "addDepGraphEdges",
    .AddRoute "/depgraph/\x7bid\x7d/edges" 1 "GET" "getDepGraphEdges" ]

/-- The method `Service.Start`. -/
def Start {Queue App : Type} (x : Externals Queue App) (s : Service Queue App) :
    Outcome Queue App :=
  match s.queue, s.app with
  | some q, some a =>
    match x.QueueStart q with
    | some err => ⟨some (.Wrap err "problem starting queue"), s, addRoutes ++ [.QueueStart]⟩
    | none =>
      match x.Resolve a with
      | some err =>
        ⟨some (.Wrap err "problem resolving routes"), s, addRoutes ++ [.QueueStart, .Resolve]⟩
      | none =>
        ⟨none, s,
          addRoutes ++ [.QueueStart, .Resolve, .Noticef "completed sink service; shutting down"]⟩
  | _, _ => ⟨some (.New "application is not valid"), s, []⟩

/-- The message of the returned error, if any. -/
def Outcome.message {Queue App : Type} (o : Outcome Queue App) : Option String :=
  o.err.map GoError.Error

/-! ## Concrete values used in the examples -/

/-- The record information of the tests: only the project is set. -/
def testInfo : SystemMetricsInfo := { Project := str "test" }

/-- The same task, flagged as a mainline run. -/
def testInfoMainline : SystemMetricsInfo := { Project := str "test", Mainline := true }

/-- A later execution of the same task. -/
def testInfoRerun : SystemMetricsInfo := { Project := str "test", Execution := 1 }

/-- Project `ab`, version `c`. -/
def infoAbC : SystemMetricsInfo := { Project := str "ab", Version := str "c" }

/-- Project `a`, version `bc`. -/
def infoABc : SystemMetricsInfo := { Project := str "a", Version := str "bc" }

/-- Project `ba`, version `c`. -/
def infoBaC : SystemMetricsInfo := { Project := str "ba", Version := str "c" }

/-- Task id `t1`, execution 2. -/
def infoT1E2 : SystemMetricsInfo := { TaskID := str "t1", Execution := 2 }

/-- Task id `t`, execution 12. -/
def infoTE12 : SystemMetricsInfo := { TaskID := str "t", Execution := 12 }

/-- An unsupported schema version. -/
def infoSchema1 : SystemMetricsInfo := { Project := str "test", Schema := 1 }

/-- The number of hashed fields (project, version, variant, task name, task id,
execution) in which two infos differ. -/
def differingHashedFields (a b : SystemMetricsInfo) : Nat :=
  (if a.Project = b.Project then 0 else 1) + (if a.Version = b.Version then 0 else 1) +
  (if a.Variant = b.Variant then 0 else 1) + (if a.TaskName = b.TaskName then 0 else 1) +
  (if a.TaskID = b.TaskID then 0 else 1) + (if a.Execution = b.Execution then 0 else 1)

/-- A valid environment with a configured bucket and two records, `x` and `y`,
with empty chunk lists: the state the tests start from. -/
def testWorld : World :=
  { envValid := true
    SystemMetricsBucket := str "system-metrics-test"
    records :=
      [ { ID := str "x", Info := testInfo, Artifact := { Prefix := str "x" } },
        { ID := str "y", Info := testInfoRerun, Artifact := { Prefix := str "y" } } ]
    blobs := []
    nextSeq := 0 }

/-- The state of the tests, with a blob store that fails on the first write
for the record `x`. -/
def putFaultWorld : World := { testWorld with putFaults := [str "x/0"] }

/-- The state of the tests, with a blob store that fails on the second write
for the record `x`. -/
def secondPutFaultWorld : World := { testWorld with putFaults := [str "x/1"] }

/-- The state of the tests, with a metadata store that fails on the first
append for the record `x`. -/
def appendFaultWorld : World := { testWorld with appendFaults := [str "x/0"] }

/-- The state of the tests, with the bucket configuration cleared. -/
def noBucketWorld : World := { testWorld with SystemMetricsBucket := [] }

/-- The state of the tests, served without a valid environment. -/
def invalidEnvWorld : World := { testWorld with envValid := false }

/-- The record `x` of `testWorld`. -/
def recordX : SystemMetrics :=
  { ID := str "x", Info := testInfo, Artifact := { Prefix := str "x" } }

/-- Three chunks for the record `x`. -/
def chunksX : List SystemMetricsData :=
  [⟨str "x", str "first"⟩, ⟨str "x", str "second"⟩, ⟨str "x", str "third"⟩]

/-- One chunk for the record `x`. -/
def chunkX : SystemMetricsData := ⟨str "x", str "first"⟩

/-- A chunk for the record `y`. -/
def chunkY : SystemMetricsData := ⟨str "y", str "other"⟩

/-- A chunk for an id that has no record. -/
def chunkDNE : SystemMetricsData := ⟨str "DNE", str "none"⟩

/-- A service with neither queue nor application, over unit handles. -/
def emptyService : Service Unit Unit := { Port := 0, queue := none, app := none }

/-- External calls that all succeed. -/
def goodExternals : Externals Unit Unit :=
  { GetQueue := (some (), none)
    NewApp := ()
    SetPort := fun _ _ => none
    QueueStart := fun _ => none
    Resolve := fun _ => none }
/-! ## Lemmas on the encodings -/

theorem digitByte_toNat (d : Nat) (h : d < 10) : (digitByte d).toNat = 48 + d := by
  unfold digitByte
  show (48 + d) % 256 = 48 + d
  omega

theorem digitsValue_decimalFuel (f n : Nat) (h : n < f) : digitsValue (decimalFuel f n) = n := by
  induction f generalizing n with
  | zero => omega
  | succ f ih =>
    unfold decimalFuel
    split
    · rename_i h10
      simp [digitsValue, digitByte_toNat n h10]
    · rename_i h10
      have hlt : n / 10 < f := by omega
      have hm : n % 10 < 10 := Nat.mod_lt _ (by decide)
      have := ih (n / 10) hlt
      simp only [digitsValue, List.foldl_append, List.foldl_cons, List.foldl_nil] at this ⊢
      rw [this, digitByte_toNat _ hm]
      omega

theorem decimalNat_injective (m n : Nat) (h : decimalNat m = decimalNat n) : m = n := by
  have hm := digitsValue_decimalFuel (m + 1) m (Nat.lt_succ_self m)
  have hn := digitsValue_decimalFuel (n + 1) n (Nat.lt_succ_self n)
  unfold decimalNat at h
  rw [h] at hm
  omega

theorem decimalFuel_digits (f n : Nat) :
    ∀ b ∈ decimalFuel f n, 48 ≤ b.toNat ∧ b.toNat ≤ 57 := by
  induction f generalizing n with
  | zero => intro b hb; simp [decimalFuel] at hb
  | succ f ih =>
    intro b hb
    unfold decimalFuel at hb
    split at hb
    · rename_i h10
      simp only [List.mem_singleton] at hb
      rw [hb, digitByte_toNat n h10]
      omega
    · have hm : n % 10 < 10 := Nat.mod_lt _ (by decide)
      simp only [List.mem_append, List.mem_singleton] at hb
      rcases hb with hb | hb
      · exact ih _ b hb
      · rw [hb, digitByte_toNat _ hm]
        omega

theorem minus_not_mem_decimalNat (n : Nat) : (45 : UInt8) ∉ decimalNat n := by
  intro h
  have := decimalFuel_digits (n + 1) n 45 h
  have h45 : (45 : UInt8).toNat = 45 := by decide
  omega

theorem Sprint_injective (i j : Int) (h : Sprint i = Sprint j) : i = j := by
  unfold Sprint at h
  split at h <;> split at h
  · have := decimalNat_injective _ _ (List.cons.inj h).2
    omega
  · exfalso
    apply minus_not_mem_decimalNat j.natAbs
    rw [← h]
    exact List.mem_cons_self _ _
  · exfalso
    apply minus_not_mem_decimalNat i.natAbs
    rw [h]
    exact List.mem_cons_self _ _
  · have := decimalNat_injective _ _ h
    omega

theorem hex_length (bs : List UInt8) : (hex bs).length = 2 * bs.length := by
  induction bs with
  | nil => rfl
  | cons b bs ih => simp only [hex, List.length_cons, ih]; omega

theorem hexDigit_isLowerHex : ∀ n, n < 16 → isLowerHex (hexDigit n) := by decide

theorem hex_isLowerHex (bs : List UInt8) : ∀ b ∈ hex bs, isLowerHex b := by
  induction bs with
  | nil => intro b hb; simp [hex] at hb
  | cons c cs ih =>
    intro b hb
    have hc : c.toNat < 256 := c.val.isLt
    simp only [hex, List.mem_cons] at hb
    rcases hb with hb | hb | hb
    · rw [hb]; exact hexDigit_isLowerHex _ (by omega)
    · rw [hb]; exact hexDigit_isLowerHex _ (by omega)
    · exact ih b hb

theorem hexDigit_injective : ∀ m, m < 16 → ∀ n, n < 16 → hexDigit m = hexDigit n → m = n := by
  decide

theorem hex_injective (bs cs : List UInt8) (h : hex bs = hex cs) : bs = cs := by
  induction bs generalizing cs with
  | nil =>
    cases cs with
    | nil => rfl
    | cons c cs => simp [hex] at h
  | cons b bs ih =>
    cases cs with
    | nil => simp [hex] at h
    | cons c cs =>
      simp only [hex, List.cons.injEq] at h
      obtain ⟨h1, h2, h3⟩ := h
      have hb : b.toNat < 256 := b.val.isLt
      have hc : c.toNat < 256 := c.val.isLt
      have e1 := hexDigit_injective _ (by omega) _ (by omega) h1
      have e2 := hexDigit_injective _ (by omega) _ (by omega) h2
      have e : b.toNat = c.toNat := by omega
      have : b = c := UInt8.ext e
      rw [this, ih cs h3]

theorem SHA1.beBytes_length (k x : Nat) : (SHA1.beBytes k x).length = k := by
  induction k with
  | zero => rfl
  | succ k ih => simp [SHA1.beBytes, ih]

theorem SHA1.sum_length (msg : List UInt8) : (SHA1.sum msg).length = 20 := by
  simp [SHA1.sum, SHA1.digest, SHA1.beBytes_length]

theorem hashInput_eq (id : SystemMetricsInfo) :
    hashInput id =
      id.Project ++ (id.Version ++ (id.Variant ++ (id.TaskName ++ (id.TaskID ++
        Sprint id.Execution)))) := by
  simp [hashInput, WriteString]

/-! ## The record id -/

set_option maxRecDepth 100000 in
/-- The id of the record of the tests is the SHA-1 digest of `test0` in
hexadecimal. -/
theorem ID_testInfo :
    ID testInfo = GoResult.returned (str "9b4bf5cdb7381fe38284a05d44d0631cf253c095") := by
  decide

/-- C1: for schema 0, `ID` returns the lowercase hexadecimal encoding of the
SHA-1 digest of project, version, variant, task name, task id and the decimal
execution number, concatenated in that order; the result has 40 characters,
each one of `0`-`9`, `a`-`f`. -/
theorem ID_schema_zero (id : SystemMetricsInfo) (h : id.Schema = 0) :
    ∃ s, ID id = GoResult.returned s ∧
      s = hex (SHA1.sum (id.Project ++ id.Version ++ id.Variant ++ id.TaskName ++ id.TaskID
            ++ Sprint id.Execution)) ∧
      s.length = 40 ∧ ∀ b ∈ s, isLowerHex b := by
  refine ⟨hex (SHA1.sum (hashInput id)), ?_, ?_, ?_, ?_⟩
  · simp [ID, h]
  · simp [hashInput_eq]
  · rw [hex_length, SHA1.sum_length]
  · exact hex_isLowerHex _

theorem ID_schema_zero_witness :
    testInfo.Schema = 0 ∧
    ∃ s, ID testInfo = GoResult.returned s ∧
      s = hex (SHA1.sum (testInfo.Project ++ testInfo.Version ++ testInfo.Variant ++
            testInfo.TaskName ++ testInfo.TaskID ++ Sprint testInfo.Execution)) ∧
      s.length = 40 ∧ ∀ b ∈ s, isLowerHex b :=
  ⟨rfl, ID_schema_zero testInfo rfl⟩

/-- C2: `ID` is a function of the identifying attributes: two infos with
schema 0 that agree on project, version, variant, task name, task id and
execution have the same id. -/
theorem ID_deterministic (a b : SystemMetricsInfo) (ha : a.Schema = 0) (hb : b.Schema = 0)
    (hProject : a.Project = b.Project) (hVersion : a.Version = b.Version)
    (hVariant : a.Variant = b.Variant) (hTaskName : a.TaskName = b.TaskName)
    (hTaskID : a.TaskID = b.TaskID) (hExecution : a.Execution = b.Execution) :
    ID a = ID b := by
  simp [ID, ha, hb, hashInput_eq, hProject, hVersion, hVariant, hTaskName, hTaskID, hExecution]

theorem ID_deterministic_witness :
    testInfo ≠ testInfoMainline ∧ ID testInfo = ID testInfoMainline :=
  ⟨by decide, ID_deterministic testInfo testInfoMainline rfl rfl rfl rfl rfl rfl rfl rfl⟩

/-- C3: `ID` panics, with the message `unsupported schema`, exactly when the
schema is not 0; for schema 0 it returns a string, and for any other schema
it returns nothing. -/
theorem ID_panics_iff (id : SystemMetricsInfo) :
    (ID id = GoResult.panicked "unsupported schema" ↔ id.Schema ≠ 0) ∧
    (id.Schema = 0 → ∃ s, ID id = GoResult.returned s) ∧
    (id.Schema ≠ 0 → ∀ s, ID id ≠ GoResult.returned s) := by
  by_cases h : id.Schema = 0 <;> simp [ID, h]

theorem ID_panics_iff_witness :
    ID infoSchema1 = GoResult.panicked "unsupported schema" ∧
    ∃ s, ID testInfo = GoResult.returned s :=
  ⟨(ID_panics_iff infoSchema1).1.2 (by decide), (ID_panics_iff testInfo).2.1 rfl⟩

theorem hashInput_cancel (a b : SystemMetricsInfo)
    (hlen : a.Project.length = b.Project.length ∧ a.Version.length = b.Version.length ∧
      a.Variant.length = b.Variant.length ∧ a.TaskName.length = b.TaskName.length ∧
      a.TaskID.length = b.TaskID.length)
    (h : hashInput a = hashInput b) :
    a.Project = b.Project ∧ a.Version = b.Version ∧ a.Variant = b.Variant ∧
      a.TaskName = b.TaskName ∧ a.TaskID = b.TaskID ∧ a.Execution = b.Execution := by
  rw [hashInput_eq, hashInput_eq] at h
  obtain ⟨l1, l2, l3, l4, l5⟩ := hlen
  obtain ⟨e1, h⟩ := List.append_inj h l1
  obtain ⟨e2, h⟩ := List.append_inj h l2
  obtain ⟨e3, h⟩ := List.append_inj h l3
  obtain ⟨e4, h⟩ := List.append_inj h l4
  obtain ⟨e5, h⟩ := List.append_inj h l5
  exact ⟨e1, e2, e3, e4, e5, Sprint_injective _ _ h⟩

theorem ID_eq_iff (a b : SystemMetricsInfo) (ha : a.Schema = 0) (hb : b.Schema = 0) :
    ID a = ID b ↔ SHA1.sum (hashInput a) = SHA1.sum (hashInput b) := by
  simp only [ID, ha, hb, if_true, GoResult.returned.injEq]
  exact ⟨hex_injective _ _, fun h => by rw [h]⟩

theorem hashInput_one_field (a b : SystemMetricsInfo) (h : hashInput a = hashInput b) :
    differingHashedFields a b ≠ 1 := by
  rw [hashInput_eq, hashInput_eq] at h
  unfold differingHashedFields
  by_cases e1 : a.Project = b.Project <;> by_cases e2 : a.Version = b.Version <;>
    by_cases e3 : a.Variant = b.Variant <;> by_cases e4 : a.TaskName = b.TaskName <;>
    by_cases e5 : a.TaskID = b.TaskID <;> by_cases e6 : a.Execution = b.Execution <;>
    simp only [e1, e2, e3, e4, e5, e6, if_true, if_false] <;> try omega
  all_goals exfalso
  · rw [e1, e2, e3, e4, e5] at h
    simp only [List.append_cancel_left_eq] at h
    exact e6 (Sprint_injective _ _ h)
  · rw [e1, e2, e3, e4, e6] at h
    simp only [List.append_cancel_left_eq, List.append_cancel_right_eq] at h
    exact e5 h
  · rw [e1, e2, e3, e5, e6] at h
    simp only [List.append_cancel_left_eq, List.append_cancel_right_eq] at h
    exact e4 h
  · rw [e1, e2, e4, e5, e6] at h
    simp only [List.append_cancel_left_eq, List.append_cancel_right_eq] at h
    exact e3 h
  · rw [e1, e3, e4, e5, e6] at h
    simp only [List.append_cancel_left_eq, List.append_cancel_right_eq] at h
    exact e2 h
  · rw [e2, e3, e4, e5, e6] at h
    simp only [List.append_cancel_right_eq] at h
    exact e1 h

set_option maxRecDepth 100000 in
/-- C4, as stated, fails: two infos with schema 0 that differ only in the
mainline flag, and two that differ in task id and execution, feed the same
bytes to the hash and get the same id. -/
theorem differing_field_same_ID :
    (testInfo ≠ testInfoMainline ∧ testInfo.Schema = 0 ∧ testInfoMainline.Schema = 0 ∧
      testInfo.Mainline ≠ testInfoMainline.Mainline ∧
      hashInput testInfo = hashInput testInfoMainline ∧ ID testInfo = ID testInfoMainline) ∧
    (infoT1E2 ≠ infoTE12 ∧ infoT1E2.Schema = 0 ∧ infoTE12.Schema = 0 ∧
      hashInput infoT1E2 = hashInput infoTE12 ∧ ID infoT1E2 = ID infoTE12) := by
  decide

/-- C4, amended: two infos with schema 0 that differ in exactly one of the six
hashed fields (project, version, variant, task name, task id, execution) feed
different bytes to the hash, so their ids differ unless SHA-1 collides on
these two inputs. -/
theorem ID_single_field_change (a b : SystemMetricsInfo) (ha : a.Schema = 0)
    (hb : b.Schema = 0) (hone : differingHashedFields a b = 1) :
    hashInput a ≠ hashInput b ∧
    (ID a = ID b ↔ SHA1.sum (hashInput a) = SHA1.sum (hashInput b)) :=
  ⟨fun h => hashInput_one_field a b h hone, ID_eq_iff a b ha hb⟩

set_option maxRecDepth 100000 in
theorem ID_single_field_change_witness :
    differingHashedFields testInfo testInfoRerun = 1 ∧
    hashInput testInfo ≠ hashInput testInfoRerun ∧ ID testInfo ≠ ID testInfoRerun :=
  ⟨by decide, (ID_single_field_change testInfo testInfoRerun rfl rfl (by decide)).1, by decide⟩

/-- C5, as stated, fails: project `ab` with version `c` and project `a` with
version `bc` are different six-field tuples that feed the same bytes to the
hash, and so get the same id. -/
theorem hashInput_not_injective :
    (infoAbC.Project, infoAbC.Version, infoAbC.Variant, infoAbC.TaskName, infoAbC.TaskID,
        infoAbC.Execution) ≠
      (infoABc.Project, infoABc.Version, infoABc.Variant, infoABc.TaskName, infoABc.TaskID,
        infoABc.Execution) ∧
    infoAbC.Schema = 0 ∧ infoABc.Schema = 0 ∧
    hashInput infoAbC = hashInput infoABc ∧ ID infoAbC = ID infoABc := by
  refine ⟨by decide, rfl, rfl, by decide, ?_⟩
  exact (ID_eq_iff _ _ rfl rfl).2 (by rw [show hashInput infoAbC = hashInput infoABc by decide])

/-- C5, amended: on infos with schema 0 whose five string fields have pairwise
the same lengths, the bytes fed to the hash determine the six fields: two such
infos whose six-field tuples differ never feed the same bytes to the hash. -/
theorem hashInput_injective_of_lengths (a b : SystemMetricsInfo) (ha : a.Schema = 0)
    (hb : b.Schema = 0)
    (hlen : a.Project.length = b.Project.length ∧ a.Version.length = b.Version.length ∧
      a.Variant.length = b.Variant.length ∧ a.TaskName.length = b.TaskName.length ∧
      a.TaskID.length = b.TaskID.length)
    (hne : (a.Project, a.Version, a.Variant, a.TaskName, a.TaskID, a.Execution) ≠
      (b.Project, b.Version, b.Variant, b.TaskName, b.TaskID, b.Execution)) :
    hashInput a ≠ hashInput b ∧
    (ID a = ID b ↔ SHA1.sum (hashInput a) = SHA1.sum (hashInput b)) := by
  refine ⟨fun h => hne ?_, ID_eq_iff a b ha hb⟩
  obtain ⟨e1, e2, e3, e4, e5, e6⟩ := hashInput_cancel a b hlen h
  rw [e1, e2, e3, e4, e5, e6]

theorem hashInput_injective_of_lengths_witness :
    infoAbC.Project.length = infoBaC.Project.length ∧ infoAbC ≠ infoBaC ∧
    hashInput infoAbC ≠ hashInput infoBaC :=
  ⟨by decide, by decide,
    (hashInput_injective_of_lengths infoAbC infoBaC rfl rfl (by decide) (by decide)).1⟩

/-! ## The ingestion service -/

theorem Load_ID (w : World) (id : GoString) (r : SystemMetrics) (h : Load w id = some r) :
    r.ID = id := by
  have := List.find?_some h
  simpa using this

theorem appendChunks_ID (r : SystemMetrics) (keys : List GoString) :
    (appendChunks r keys).ID = r.ID := rfl

theorem appendChunks_Prefix (r : SystemMetrics) (keys : List GoString) :
    (appendChunks r keys).Artifact.Prefix = r.Artifact.Prefix := rfl

theorem appendChunks_appendChunks (r : SystemMetrics) (ks ls : List GoString) :
    appendChunks (appendChunks r ks) ls = appendChunks r (ks ++ ls) := by
  simp [appendChunks]

theorem appendChunks_nil (r : SystemMetrics) : appendChunks r [] = r := by
  simp [appendChunks]

/-- The world after a successful write step. -/
theorem writeChunk_ok (w : World) (id pfx : GoString) (data : List UInt8) (r : SystemMetrics)
    (h : Load w id = some r) (hput : chunkKey pfx w.nextSeq ∉ w.putFaults)
    (happ : chunkKey pfx w.nextSeq ∉ w.appendFaults) :
    writeChunk w id pfx data = (.ok id, written w id (chunkKey pfx w.nextSeq) data) := by
  have h2 : Load (World.mk w.envValid w.SystemMetricsBucket w.records
      ((chunkKey pfx w.nextSeq, data) :: w.blobs) (w.nextSeq + 1) w.putFaults
      w.appendFaults) id = some r := h
  simp only [writeChunk, Put, AppendChunk, hput, happ, if_false, h2, written]

/-- A failed blob write is reported as `StorageWriteFailed`; nothing is stored
and no key is appended. -/
theorem writeChunk_put_failure (w : World) (id pfx : GoString) (data : List UInt8)
    (hput : chunkKey pfx w.nextSeq ∈ w.putFaults) :
    (writeChunk w id pfx data).1 = .error .StorageWriteFailed ∧
    (writeChunk w id pfx data).2.blobs = w.blobs ∧
    (writeChunk w id pfx data).2.records = w.records := by
  simp [writeChunk, Put, hput]

/-- A failed append after a successful blob write is reported as
`StorageWriteFailed`; the blob stays in the store and no key is appended. -/
theorem writeChunk_append_failure (w : World) (id pfx : GoString) (data : List UInt8)
    (hput : chunkKey pfx w.nextSeq ∉ w.putFaults)
    (happ : chunkKey pfx w.nextSeq ∈ w.appendFaults) :
    (writeChunk w id pfx data).1 = .error .StorageWriteFailed ∧
    (writeChunk w id pfx data).2.blobs = (chunkKey pfx w.nextSeq, data) :: w.blobs ∧
    (writeChunk w id pfx data).2.records = w.records := by
  have hnone : AppendChunk (World.mk w.envValid w.SystemMetricsBucket w.records
      ((chunkKey pfx w.nextSeq, data) :: w.blobs) (w.nextSeq + 1) w.putFaults
      w.appendFaults) id (chunkKey pfx w.nextSeq) = none := by
    unfold AppendChunk
    split <;> simp [happ]
  simp only [writeChunk, Put, hput, if_false, hnone]
  exact ⟨trivial, trivial, trivial⟩

theorem Load_written (w : World) (id key id2 : GoString) (data : List UInt8) :
    Load (written w id key data) id2 =
      (Load w id2).map (fun r => if r.ID = id then appendChunks r [key] else r) := by
  simp only [Load, written, List.find?_map]
  congr 1
  apply congrArg (fun p => List.find? p w.records)
  funext r
  simp only [Function.comp]
  split <;> simp [appendChunks_ID]

theorem Load_written_same (w : World) (id key : GoString) (data : List UInt8)
    (r : SystemMetrics) (h : Load w id = some r) :
    Load (written w id key data) id = some (appendChunks r [key]) := by
  rw [Load_written, h]
  simp [Load_ID w id r h]

theorem Load_written_other (w : World) (id key id2 : GoString) (data : List UInt8)
    (hne : id2 ≠ id) : Load (written w id key data) id2 = Load w id2 := by
  rw [Load_written]
  cases h : Load w id2 with
  | none => rfl
  | some r2 =>
    have := Load_ID w id2 r2 h
    simp [this, hne]

theorem checkPreconditions_ok (w : World) (id : GoString) (r : SystemMetrics)
    (henv : w.envValid = true) (hconf : w.SystemMetricsBucket ≠ []) (h : Load w id = some r) :
    checkPreconditions w id = .ok r := by
  simp [checkPreconditions, henv, hconf, h]

theorem AddSystemMetrics_ok (w : World) (c : SystemMetricsData) (r : SystemMetrics)
    (henv : w.envValid = true) (hconf : w.SystemMetricsBucket ≠ [])
    (h : Load w c.Id = some r) (hw : writesSucceed w r.Artifact.Prefix 1) :
    AddSystemMetrics w c =
      (.ok c.Id, written w c.Id (chunkKey r.Artifact.Prefix w.nextSeq) c.Data) := by
  have hid := Load_ID w c.Id r h
  have hk := hw _ (List.mem_cons_self _ _)
  simp only [AddSystemMetrics, checkPreconditions_ok w c.Id r henv hconf h, hid]
  exact writeChunk_ok w c.Id _ _ r h hk.1 hk.2

theorem writesSucceed_succ (w : World) (id pfx : GoString) (data : List UInt8) (n : Nat)
    (h : writesSucceed w pfx (n + 1)) :
    chunkKey pfx w.nextSeq ∉ w.putFaults ∧ chunkKey pfx w.nextSeq ∉ w.appendFaults ∧
    writesSucceed (written w id (chunkKey pfx w.nextSeq) data) pfx n :=
  ⟨(h _ (List.mem_cons_self _ _)).1, (h _ (List.mem_cons_self _ _)).2,
    fun key hk => h key (List.mem_cons_of_mem _ hk)⟩

theorem writesSucceed_one (w : World) (pfx : GoString) (n : Nat)
    (h : writesSucceed w pfx (n + 1)) : writesSucceed w pfx 1 :=
  fun key hk => h key (by
    simp only [chunkKeys, List.mem_singleton] at hk
    rw [hk]
    exact List.mem_cons_self _ _)

theorem chunkKey_injective (pfx : GoString) (a b : Nat) (h : chunkKey pfx a = chunkKey pfx b) :
    a = b := by
  unfold chunkKey at h
  have h1 := List.append_cancel_left h
  exact decimalNat_injective a b (List.cons.inj h1).2

theorem mem_chunkKeys (pfx : GoString) (s n : Nat) (key : GoString)
    (h : key ∈ chunkKeys pfx s n) : ∃ j, s ≤ j ∧ key = chunkKey pfx j := by
  induction n generalizing s with
  | zero => simp [chunkKeys] at h
  | succ n ih =>
    simp only [chunkKeys, List.mem_cons] at h
    rcases h with h | h
    · exact ⟨s, Nat.le_refl s, h⟩
    · obtain ⟨j, hj, e⟩ := ih (s + 1) h
      exact ⟨j, by omega, e⟩

theorem chunkKeys_nodup (pfx : GoString) (s n : Nat) : (chunkKeys pfx s n).Nodup := by
  induction n generalizing s with
  | zero => simp [chunkKeys]
  | succ n ih =>
    simp only [chunkKeys, List.nodup_cons]
    refine ⟨fun hmem => ?_, ih (s + 1)⟩
    obtain ⟨j, hj, e⟩ := mem_chunkKeys pfx (s + 1) n _ hmem
    have := chunkKey_injective pfx s j e
    omega

theorem chunkKeys_length (pfx : GoString) (s n : Nat) : (chunkKeys pfx s n).length = n := by
  induction n generalizing s with
  | zero => rfl
  | succ n ih => simp [chunkKeys, ih]

theorem find_blob_append (l m : List (GoString × List UInt8)) (key : GoString)
    (h : ∀ kv ∈ l, kv.1 ≠ key) :
    (l ++ m).find? (fun kv => decide (kv.1 = key)) = m.find? (fun kv => decide (kv.1 = key)) := by
  induction l with
  | nil => rfl
  | cons kv l ih =>
    have h1 : kv.1 ≠ key := h kv (List.mem_cons_self _ _)
    have h2 : ∀ kv2 ∈ l, kv2.1 ≠ key := fun kv2 hm => h kv2 (List.mem_cons_of_mem _ hm)
    simp [List.find?_cons, h1, ih h2]

theorem find_blob_zip (keys : List GoString) (ds : List (List UInt8))
    (rest : List (GoString × List UInt8)) (hnd : keys.Nodup) (hlen : keys.length = ds.length) :
    List.Forall₂
      (fun key d =>
        (((keys.zip ds).reverse ++ rest).find? (fun kv => decide (kv.1 = key))).map
          (fun kv => kv.2) = some d)
      keys ds := by
  induction keys generalizing ds rest with
  | nil =>
    cases ds with
    | nil => exact List.Forall₂.nil
    | cons d ds => simp at hlen
  | cons k ks ih =>
    cases ds with
    | nil => simp at hlen
    | cons d ds =>
      have hk : k ∉ ks := (List.nodup_cons.1 hnd).1
      have hks : ks.Nodup := (List.nodup_cons.1 hnd).2
      have hl : ks.length = ds.length := by simpa using hlen
      have e : ((k :: ks).zip (d :: ds)).reverse ++ rest =
          (ks.zip ds).reverse ++ ((k, d) :: rest) := by
        simp [List.zip_cons_cons, List.reverse_cons, List.append_assoc]
      rw [e]
      constructor
      · rw [find_blob_append]
        · simp
        · intro kv hkv hkey
          have hm : kv ∈ ks.zip ds := List.mem_reverse.1 hkv
          have : kv.1 ∈ ks := (List.of_mem_zip (show (kv.1, kv.2) ∈ ks.zip ds from hm)).1
          exact hk (hkey ▸ this)
      · exact ih ds ((k, d) :: rest) hks hl

theorem writtenAll_fields (w : World) (id pfx : GoString) (ds : List (List UInt8)) :
    (writtenAll w id pfx ds).envValid = w.envValid ∧
    (writtenAll w id pfx ds).SystemMetricsBucket = w.SystemMetricsBucket ∧
    (writtenAll w id pfx ds).nextSeq = w.nextSeq + ds.length ∧
    (writtenAll w id pfx ds).blobs =
      ((chunkKeys pfx w.nextSeq ds.length).zip ds).reverse ++ w.blobs := by
  induction ds generalizing w with
  | nil => simp [writtenAll, chunkKeys]
  | cons d ds ih =>
    obtain ⟨h1, h2, h3, h4⟩ := ih (written w id (chunkKey pfx w.nextSeq) d)
    simp only [writtenAll]
    refine ⟨h1, h2, ?_, ?_⟩
    · rw [h3]; simp only [written, List.length_cons]; omega
    · rw [h4]
      simp [written, chunkKeys, List.zip_cons_cons, List.reverse_cons, List.append_assoc]

theorem Load_writtenAll_same (w : World) (id pfx : GoString) (ds : List (List UInt8))
    (r : SystemMetrics) (h : Load w id = some r) :
    Load (writtenAll w id pfx ds) id =
      some (appendChunks r (chunkKeys pfx w.nextSeq ds.length)) := by
  induction ds generalizing w r with
  | nil => simp [writtenAll, chunkKeys, appendChunks_nil, h]
  | cons d ds ih =>
    simp only [writtenAll]
    rw [ih _ _ (Load_written_same w id _ d r h), appendChunks_appendChunks]
    simp [written, chunkKeys]

theorem Load_writtenAll_other (w : World) (id pfx id2 : GoString) (ds : List (List UInt8))
    (hne : id2 ≠ id) : Load (writtenAll w id pfx ds) id2 = Load w id2 := by
  induction ds generalizing w with
  | nil => rfl
  | cons d ds ih =>
    simp only [writtenAll]
    rw [ih, Load_written_other w id _ id2 d hne]

theorem Get_writtenAll (w : World) (id pfx : GoString) (chunks : List SystemMetricsData) :
    List.Forall₂
      (fun key c => Get (writtenAll w id pfx (chunks.map (fun c => c.Data))) key = some c.Data)
      (chunkKeys pfx w.nextSeq chunks.length) chunks := by
  have h := find_blob_zip (chunkKeys pfx w.nextSeq chunks.length)
    (chunks.map (fun c => c.Data)) w.blobs (chunkKeys_nodup _ _ _)
    (by simp [chunkKeys_length])
  rw [List.forall₂_map_right_iff] at h
  have hb := (writtenAll_fields w id pfx (chunks.map (fun c => c.Data))).2.2.2
  simp only [List.length_map] at hb
  simpa only [Get, hb] using h

theorem fold_aborted (e : IngestError) (w : World) (chunks : List SystemMetricsData) :
    chunks.foldl recvChunk (.Aborted e, w) = (.Aborted e, w) := by
  induction chunks with
  | nil => rfl
  | cons c cs ih => simpa [List.foldl_cons, recvChunk] using ih

theorem fold_streaming (w : World) (id pfx : GoString) (r : SystemMetrics)
    (chunks : List SystemMetricsData) (h : Load w id = some r)
    (hall : ∀ c ∈ chunks, c.Id = id) (hw : writesSucceed w pfx chunks.length) :
    chunks.foldl recvChunk (.Streaming id pfx, w) =
      (.Streaming id pfx, writtenAll w id pfx (chunks.map (fun c => c.Data))) := by
  induction chunks generalizing w r with
  | nil => rfl
  | cons c cs ih =>
    have hc : c.Id = id := hall c (List.mem_cons_self _ _)
    have hcs : ∀ c2 ∈ cs, c2.Id = id := fun c2 hm => hall c2 (List.mem_cons_of_mem _ hm)
    obtain ⟨hput, happ, hrest⟩ := writesSucceed_succ w id pfx c.Data cs.length hw
    have step : recvChunk (.Streaming id pfx, w) c =
        (.Streaming id pfx, written w id (chunkKey pfx w.nextSeq) c.Data) := by
      simp [recvChunk, hc, writeChunk_ok w id pfx c.Data r h hput happ]
    rw [List.foldl_cons, step, ih _ _ (Load_written_same w id _ c.Data r h) hcs hrest]
    rfl

theorem recvChunk_first (w : World) (c : SystemMetricsData) (r : SystemMetrics)
    (henv : w.envValid = true) (hconf : w.SystemMetricsBucket ≠ [])
    (h : Load w c.Id = some r) (hw : writesSucceed w r.Artifact.Prefix 1) :
    recvChunk (.AwaitingFirstChunk, w) c =
      (.Streaming c.Id r.Artifact.Prefix,
        written w c.Id (chunkKey r.Artifact.Prefix w.nextSeq) c.Data) := by
  have hid := Load_ID w c.Id r h
  have hk := hw _ (List.mem_cons_self _ _)
  simp only [recvChunk, checkPreconditions_ok w c.Id r henv hconf h, hid,
    writeChunk_ok w c.Id _ c.Data r h hk.1 hk.2]

theorem fold_same_id (w : World) (id : GoString) (r : SystemMetrics)
    (chunks : List SystemMetricsData) (henv : w.envValid = true)
    (hconf : w.SystemMetricsBucket ≠ []) (h : Load w id = some r) (hne : chunks ≠ [])
    (hall : ∀ c ∈ chunks, c.Id = id) (hw : writesSucceed w r.Artifact.Prefix chunks.length) :
    chunks.foldl recvChunk (.AwaitingFirstChunk, w) =
      (.Streaming id r.Artifact.Prefix,
        writtenAll w id r.Artifact.Prefix (chunks.map (fun c => c.Data))) := by
  cases chunks with
  | nil => exact absurd rfl hne
  | cons c cs =>
    have hc : c.Id = id := hall c (List.mem_cons_self _ _)
    have hcs : ∀ c2 ∈ cs, c2.Id = id := fun c2 hm => hall c2 (List.mem_cons_of_mem _ hm)
    subst hc
    obtain ⟨_, _, hrest⟩ := writesSucceed_succ w c.Id r.Artifact.Prefix c.Data cs.length hw
    rw [List.foldl_cons,
      recvChunk_first w c r henv hconf h (writesSucceed_one w _ cs.length hw),
      fold_streaming _ _ _ _ cs (Load_written_same w c.Id _ c.Data r h) hcs hrest]
    rfl

theorem unaryCalls_same_id (w : World) (id : GoString) (r : SystemMetrics)
    (cs : List SystemMetricsData) (henv : w.envValid = true)
    (hconf : w.SystemMetricsBucket ≠ []) (h : Load w id = some r)
    (hall : ∀ c ∈ cs, c.Id = id) (hw : writesSucceed w r.Artifact.Prefix cs.length) :
    unaryCalls w cs =
      (cs.map (fun _ => .ok id),
        writtenAll w id r.Artifact.Prefix (cs.map (fun c => c.Data))) := by
  induction cs generalizing w r with
  | nil => rfl
  | cons c cs ih =>
    have hc : c.Id = id := hall c (List.mem_cons_self _ _)
    have hcs : ∀ c2 ∈ cs, c2.Id = id := fun c2 hm => hall c2 (List.mem_cons_of_mem _ hm)
    subst hc
    obtain ⟨_, _, hrest⟩ := writesSucceed_succ w c.Id r.Artifact.Prefix c.Data cs.length hw
    have step := AddSystemMetrics_ok w c r henv hconf h (writesSucceed_one w _ cs.length hw)
    have ih2 := ih (written w c.Id (chunkKey r.Artifact.Prefix w.nextSeq) c.Data)
      (appendChunks r [chunkKey r.Artifact.Prefix w.nextSeq]) henv hconf
      (Load_written_same w c.Id _ c.Data r h) hcs hrest
    simp only [unaryCalls, step, ih2, appendChunks_Prefix]
    rfl

theorem message_ne (p s t : String) (h : p.data.head? ≠ s.data.head?) (hp : p.data ≠ []) :
    p ++ t ≠ s := by
  intro e
  apply h
  rw [← e, String.data_append]
  cases hd : p.data with
  | nil => exact absurd hd hp
  | cons c cs => rfl

/-- C6, as stated, fails: with a valid environment, a configured bucket and an
existing record `x`, a stream of three chunks for `x` whose first blob write
fails is answered with `StorageWriteFailed`, not with the id; no key is
appended and no blob is stored. -/
theorem StreamSystemMetrics_put_failure :
    putFaultWorld.envValid = true ∧ putFaultWorld.SystemMetricsBucket ≠ [] ∧
    Load putFaultWorld (str "x") = some recordX ∧ chunksX ≠ [] ∧
    (∀ c ∈ chunksX, c.Id = str "x") ∧
    (StreamSystemMetrics putFaultWorld chunksX).1 = .error .StorageWriteFailed ∧
    chunksOf (StreamSystemMetrics putFaultWorld chunksX).2 (str "x") = [] ∧
    (StreamSystemMetrics putFaultWorld chunksX).2.blobs = [] :=
  ⟨rfl, by decide, by decide, by decide, by decide, rfl, by decide, by decide⟩

/-- C6, amended: a stream of one or more chunks that all carry the id of an
existing record, with a valid environment and a configured bucket, and whose
blob writes and appends all succeed, returns that id on close; afterwards the
chunk list of the record is its previous value followed by one new key per
chunk, in arrival order, and the blob stored at the i-th new key is the
payload of the i-th chunk. -/
theorem StreamSystemMetrics_appends_in_order (w : World) (id : GoString) (r : SystemMetrics)
    (chunks : List SystemMetricsData) (henv : w.envValid = true)
    (hconf : w.SystemMetricsBucket ≠ []) (hload : Load w id = some r) (hne : chunks ≠ [])
    (hall : ∀ c ∈ chunks, c.Id = id)
    (hw : writesSucceed w r.Artifact.Prefix chunks.length) :
    (StreamSystemMetrics w chunks).1 = .ok id ∧
    ∃ keys : List GoString,
      keys.length = chunks.length ∧
      Load (StreamSystemMetrics w chunks).2 id = some (appendChunks r keys) ∧
      chunksOf (StreamSystemMetrics w chunks).2 id = r.Artifact.Chunks ++ keys ∧
      List.Forall₂ (fun key c => Get (StreamSystemMetrics w chunks).2 key = some c.Data)
        keys chunks := by
  have hfold := fold_same_id w id r chunks henv hconf hload hne hall hw
  have hload2 := Load_writtenAll_same w id r.Artifact.Prefix (chunks.map (fun c => c.Data)) r hload
  simp only [List.length_map] at hload2
  refine ⟨by simp [StreamSystemMetrics, hfold, closeSend],
    chunkKeys r.Artifact.Prefix w.nextSeq chunks.length, chunkKeys_length _ _ _, ?_, ?_, ?_⟩
  · simpa [StreamSystemMetrics, hfold] using hload2
  · simp only [StreamSystemMetrics, hfold, chunksOf, hload2]
    rfl
  · simpa [StreamSystemMetrics, hfold] using Get_writtenAll w id r.Artifact.Prefix chunks

theorem StreamSystemMetrics_appends_in_order_witness :
    writesSucceed testWorld recordX.Artifact.Prefix chunksX.length ∧
    (StreamSystemMetrics testWorld chunksX).1 = .ok (str "x") ∧
    ∃ keys : List GoString,
      keys.length = chunksX.length ∧
      Load (StreamSystemMetrics testWorld chunksX).2 (str "x") = some (appendChunks recordX keys) ∧
      chunksOf (StreamSystemMetrics testWorld chunksX).2 (str "x") =
        recordX.Artifact.Chunks ++ keys ∧
      List.Forall₂ (fun key c => Get (StreamSystemMetrics testWorld chunksX).2 key = some c.Data)
        keys chunksX :=
  ⟨by decide,
    StreamSystemMetrics_appends_in_order testWorld (str "x") recordX chunksX rfl (by decide)
      (by decide) (by decide) (by decide) (by decide)⟩

/-- The stream test with valid data: three chunks for `x` give three keys, in
order, each holding its payload. -/
theorem StreamSystemMetrics_testWorld :
    (StreamSystemMetrics testWorld chunksX).1 = .ok (str "x") ∧
    chunksOf (StreamSystemMetrics testWorld chunksX).2 (str "x") =
      [str "x/0", str "x/1", str "x/2"] ∧
    Get (StreamSystemMetrics testWorld chunksX).2 (str "x/0") = some (str "first") ∧
    Get (StreamSystemMetrics testWorld chunksX).2 (str "x/1") = some (str "second") ∧
    Get (StreamSystemMetrics testWorld chunksX).2 (str "x/2") = some (str "third") :=
  ⟨rfl, by decide, by decide, by decide, by decide⟩

/-- C7, as stated, fails: with a valid environment, a configured bucket and an
existing record `x`, a unary call for `x` whose append fails after the blob
write is answered with `StorageWriteFailed`, not with the id; the chunk list
of `x` does not grow, and the payload is left in the blob store under a key
that no record lists. -/
theorem AddSystemMetrics_append_failure :
    appendFaultWorld.envValid = true ∧ appendFaultWorld.SystemMetricsBucket ≠ [] ∧
    Load appendFaultWorld chunkX.Id = some recordX ∧
    (AddSystemMetrics appendFaultWorld chunkX).1 = .error .StorageWriteFailed ∧
    chunksOf (AddSystemMetrics appendFaultWorld chunkX).2 chunkX.Id = [] ∧
    Get (AddSystemMetrics appendFaultWorld chunkX).2 (str "x/0") = some chunkX.Data :=
  ⟨rfl, by decide, by decide, rfl, by decide, by decide⟩

/-- C7, amended: a unary call whose id names an existing record, with a valid
environment and a configured bucket, and whose blob write and append succeed,
answers with the request id, appends exactly one key at the end of the chunk
list of the record and leaves the request payload stored at that key; `k`
such calls in a row whose writes succeed all answer with the id and add `k`
keys, so a record created with an empty chunk list has `k` chunks
afterwards. -/
theorem AddSystemMetrics_appends_one (w : World) (id : GoString) (r : SystemMetrics)
    (henv : w.envValid = true) (hconf : w.SystemMetricsBucket ≠ [])
    (hload : Load w id = some r) :
    (∀ chunk : SystemMetricsData, chunk.Id = id → writesSucceed w r.Artifact.Prefix 1 →
      (AddSystemMetrics w chunk).1 = .ok chunk.Id ∧
      ∃ key : GoString,
        Load (AddSystemMetrics w chunk).2 id = some (appendChunks r [key]) ∧
        chunksOf (AddSystemMetrics w chunk).2 id = r.Artifact.Chunks ++ [key] ∧
        Get (AddSystemMetrics w chunk).2 key = some chunk.Data) ∧
    (∀ calls : List SystemMetricsData, (∀ c ∈ calls, c.Id = id) →
      writesSucceed w r.Artifact.Prefix calls.length →
      (unaryCalls w calls).1 = calls.map (fun _ => .ok id) ∧
      (chunksOf (unaryCalls w calls).2 id).length = r.Artifact.Chunks.length + calls.length ∧
      (r.Artifact.Chunks = [] → (chunksOf (unaryCalls w calls).2 id).length = calls.length)) := by
  constructor
  · intro chunk hid hw
    subst hid
    have hok := AddSystemMetrics_ok w chunk r henv hconf hload hw
    have hl := Load_written_same w chunk.Id (chunkKey r.Artifact.Prefix w.nextSeq) chunk.Data r
      hload
    refine ⟨by rw [hok], chunkKey r.Artifact.Prefix w.nextSeq, ?_, ?_, ?_⟩
    · rw [hok]; exact hl
    · rw [hok]; simp only [chunksOf, hl]; rfl
    · rw [hok]; simp [Get, written]
  · intro calls hall hw
    have hu := unaryCalls_same_id w id r calls henv hconf hload hall hw
    have hl := Load_writtenAll_same w id r.Artifact.Prefix (calls.map (fun c => c.Data)) r hload
    have hlen : (chunksOf (unaryCalls w calls).2 id).length =
        r.Artifact.Chunks.length + calls.length := by
      rw [hu]
      simp only [chunksOf, hl]
      simp [appendChunks, chunkKeys_length]
    refine ⟨by rw [hu], hlen, fun hfresh => ?_⟩
    rw [hlen, hfresh]
    simp

theorem AddSystemMetrics_appends_one_witness :
    ((AddSystemMetrics testWorld chunkX).1 = .ok chunkX.Id ∧
      ∃ key : GoString,
        Load (AddSystemMetrics testWorld chunkX).2 (str "x") = some (appendChunks recordX [key]) ∧
        chunksOf (AddSystemMetrics testWorld chunkX).2 (str "x") =
          recordX.Artifact.Chunks ++ [key] ∧
        Get (AddSystemMetrics testWorld chunkX).2 key = some chunkX.Data) ∧
    (unaryCalls testWorld chunksX).1 = chunksX.map (fun _ => .ok (str "x")) ∧
    (chunksOf (unaryCalls testWorld chunksX).2 (str "x")).length =
      recordX.Artifact.Chunks.length + chunksX.length ∧
    (recordX.Artifact.Chunks = [] →
      (chunksOf (unaryCalls testWorld chunksX).2 (str "x")).length = chunksX.length) :=
  ⟨(AddSystemMetrics_appends_one testWorld (str "x") recordX rfl (by decide) (by decide)).1
      chunkX rfl (by decide),
    (AddSystemMetrics_appends_one testWorld (str "x") recordX rfl (by decide) (by decide)).2
      chunksX (by decide) (by decide)⟩

/-- C8: the three preconditions of an ingestion call are checked in order, and
a failure is reported with no side effect, for a unary call and for the first
chunk of a stream alike: an invalid environment gives `InvalidEnvironment`;
otherwise an empty bucket configuration gives `InvalidConfiguration`;
otherwise an id with no stored record gives `RecordNotFound`.  In each case
there is no response and the world (blobs and records) is unchanged. -/
theorem precondition_failure_no_side_effect (w : World) (chunk : SystemMetricsData)
    (later : List SystemMetricsData) :
    (w.envValid = false →
      AddSystemMetrics w chunk = (.error .InvalidEnvironment, w) ∧
      StreamSystemMetrics w (chunk :: later) = (.error .InvalidEnvironment, w)) ∧
    (w.envValid = true → w.SystemMetricsBucket = [] →
      AddSystemMetrics w chunk = (.error .InvalidConfiguration, w) ∧
      StreamSystemMetrics w (chunk :: later) = (.error .InvalidConfiguration, w)) ∧
    (w.envValid = true → w.SystemMetricsBucket ≠ [] → Load w chunk.Id = none →
      AddSystemMetrics w chunk = (.error .RecordNotFound, w) ∧
      StreamSystemMetrics w (chunk :: later) = (.error .RecordNotFound, w)) := by
  refine ⟨fun henv => ?_, fun henv hconf => ?_, fun henv hconf hload => ?_⟩
  · have hp : checkPreconditions w chunk.Id = .error .InvalidEnvironment := by
      simp [checkPreconditions, henv]
    simp [AddSystemMetrics, StreamSystemMetrics, recvChunk, hp, fold_aborted, closeSend]
  · have hp : checkPreconditions w chunk.Id = .error .InvalidConfiguration := by
      simp [checkPreconditions, henv, hconf]
    simp [AddSystemMetrics, StreamSystemMetrics, recvChunk, hp, fold_aborted, closeSend]
  · have hp : checkPreconditions w chunk.Id = .error .RecordNotFound := by
      simp [checkPreconditions, henv, hconf, hload]
    simp [AddSystemMetrics, StreamSystemMetrics, recvChunk, hp, fold_aborted, closeSend]

/-- The tests with a missing record: nothing is written. -/
theorem precondition_failure_testWorld :
    AddSystemMetrics testWorld chunkDNE = (.error .RecordNotFound, testWorld) ∧
    StreamSystemMetrics testWorld (chunkDNE :: chunksX) = (.error .RecordNotFound, testWorld) :=
  ((precondition_failure_no_side_effect testWorld chunkDNE chunksX).2.2 rfl (by decide)
    (by decide))

/-- C9, as stated, fails: a stream of three chunks for the existing record `x`
followed by a chunk for `y` is answered with `InvalidEnvironment` when the
environment is invalid, with `InvalidConfiguration` when the bucket
configuration is empty, and with `StorageWriteFailed` when a blob write for
`x` fails before the mismatch is reached; in none of these cases with
`MixedRecordIDs`, and in the first two nothing is appended for `x`. -/
theorem StreamSystemMetrics_mixed_ids_other_error :
    (∀ c ∈ chunksX, c.Id = str "x") ∧ chunkY.Id ≠ str "x" ∧
    (Load invalidEnvWorld (str "x") = some recordX ∧
      (StreamSystemMetrics invalidEnvWorld (chunksX ++ [chunkY])).1 =
        .error .InvalidEnvironment ∧
      chunksOf (StreamSystemMetrics invalidEnvWorld (chunksX ++ [chunkY])).2 (str "x") = []) ∧
    (Load noBucketWorld (str "x") = some recordX ∧
      (StreamSystemMetrics noBucketWorld (chunksX ++ [chunkY])).1 =
        .error .InvalidConfiguration ∧
      chunksOf (StreamSystemMetrics noBucketWorld (chunksX ++ [chunkY])).2 (str "x") = []) ∧
    (Load secondPutFaultWorld (str "x") = some recordX ∧
      secondPutFaultWorld.envValid = true ∧ secondPutFaultWorld.SystemMetricsBucket ≠ [] ∧
      (StreamSystemMetrics secondPutFaultWorld (chunksX ++ [chunkY])).1 =
        .error .StorageWriteFailed) :=
  ⟨by decide, by decide, ⟨by decide, rfl, by decide⟩, ⟨by decide, rfl, by decide⟩,
    ⟨by decide, rfl, by decide, rfl⟩⟩

/-- C9, amended: with a valid environment and a configured bucket, a stream
whose first chunks carry the id `X` of an existing record and are all written
and appended successfully, and whose next chunk carries another id, fails
with `MixedRecordIDs` and gives no response.  The world is left as the chunks
before the mismatch left it: their keys are appended to the chunk list of
`X`, in order, every other record is untouched, and the blob store holds
their payloads and nothing from the mismatching chunk or any later one. -/
theorem StreamSystemMetrics_mixed_ids (w : World) (X : GoString) (r : SystemMetrics)
    (before : List SystemMetricsData) (mismatch : SystemMetricsData)
    (later : List SystemMetricsData) (henv : w.envValid = true)
    (hconf : w.SystemMetricsBucket ≠ []) (hload : Load w X = some r) (hne : before ≠ [])
    (hall : ∀ c ∈ before, c.Id = X) (hmix : mismatch.Id ≠ X)
    (hw : writesSucceed w r.Artifact.Prefix before.length) :
    (StreamSystemMetrics w (before ++ mismatch :: later)).1 = .error .MixedRecordIDs ∧
    (StreamSystemMetrics w (before ++ mismatch :: later)).2 = (StreamSystemMetrics w before).2 ∧
    ∃ keys : List GoString,
      keys.length = before.length ∧
      chunksOf (StreamSystemMetrics w (before ++ mismatch :: later)).2 X =
        r.Artifact.Chunks ++ keys ∧
      (∀ Y, Y ≠ X → Load (StreamSystemMetrics w (before ++ mismatch :: later)).2 Y = Load w Y) ∧
      (StreamSystemMetrics w (before ++ mismatch :: later)).2.blobs =
        (keys.zip (before.map (fun c => c.Data))).reverse ++ w.blobs := by
  have hfold := fold_same_id w X r before henv hconf hload hne hall hw
  have hmis : recvChunk
      (.Streaming X r.Artifact.Prefix,
        writtenAll w X r.Artifact.Prefix (before.map (fun c => c.Data))) mismatch =
      (.Aborted .MixedRecordIDs,
        writtenAll w X r.Artifact.Prefix (before.map (fun c => c.Data))) := by
    simp [recvChunk, hmix]
  have hall2 : (before ++ mismatch :: later).foldl recvChunk (.AwaitingFirstChunk, w) =
      (.Aborted .MixedRecordIDs,
        writtenAll w X r.Artifact.Prefix (before.map (fun c => c.Data))) := by
    rw [List.foldl_append, hfold, List.foldl_cons, hmis, fold_aborted]
  have hl := Load_writtenAll_same w X r.Artifact.Prefix (before.map (fun c => c.Data)) r hload
  have hf := writtenAll_fields w X r.Artifact.Prefix (before.map (fun c => c.Data))
  simp only [List.length_map] at hl hf
  simp only [StreamSystemMetrics, hall2, hfold, closeSend]
  refine ⟨trivial, trivial, chunkKeys r.Artifact.Prefix w.nextSeq before.length,
    chunkKeys_length _ _ _, ?_, ?_, hf.2.2.2⟩
  · simp only [chunksOf, hl]
    rfl
  · intro Y hY
    exact Load_writtenAll_other w X r.Artifact.Prefix Y _ hY

theorem StreamSystemMetrics_mixed_ids_witness :
    (StreamSystemMetrics testWorld (chunksX ++ chunkY :: chunksX)).1 = .error .MixedRecordIDs ∧
    (StreamSystemMetrics testWorld (chunksX ++ chunkY :: chunksX)).2 =
      (StreamSystemMetrics testWorld chunksX).2 ∧
    ∃ keys : List GoString,
      keys.length = chunksX.length ∧
      chunksOf (StreamSystemMetrics testWorld (chunksX ++ chunkY :: chunksX)).2 (str "x") =
        recordX.Artifact.Chunks ++ keys ∧
      (∀ Y, Y ≠ str "x" →
        Load (StreamSystemMetrics testWorld (chunksX ++ chunkY :: chunksX)).2 Y =
          Load testWorld Y) ∧
      (StreamSystemMetrics testWorld (chunksX ++ chunkY :: chunksX)).2.blobs =
        (keys.zip (chunksX.map (fun c => c.Data))).reverse ++ testWorld.blobs :=
  StreamSystemMetrics_mixed_ids testWorld (str "x") recordX chunksX chunkY chunksX rfl
    (by decide) (by decide) (by decide) (by decide) (by decide) (by decide)

/-! ## The REST service -/

theorem validateApp_spec {Queue App : Type} (x : Externals Queue App) (s : Service Queue App)
    (calls : List Call) (h : (validateApp x s calls).err = none) :
    (validateApp x s calls).service.Port = (if s.Port = 0 then 3000 else s.Port) ∧
    (validateApp x s calls).service.queue = s.queue ∧
    (validateApp x s calls).service.app ≠ none := by
  unfold validateApp at h ⊢
  cases ha : s.app <;> by_cases hp : s.Port = 0 <;> simp only [ha, hp, if_true, if_false] at h ⊢
  all_goals
    split at h
    · simp at h
    · rename_i hset
      simp [hset]

theorem Start_message_ne {Queue App : Type} (x : Externals Queue App) (s : Service Queue App)
    (hq : s.queue ≠ none) (ha : s.app ≠ none) :
    (Start x s).message ≠ some "application is not valid" := by
  cases hqv : s.queue with
  | none => exact absurd hqv hq
  | some q =>
    cases hav : s.app with
    | none => exact absurd hav ha
    | some a =>
      simp only [Start, hqv, hav]
      cases x.QueueStart q with
      | some e =>
        simp only [Outcome.message, Option.map_some', GoError.Error, ne_eq, Option.some.injEq]
        rw [String.append_assoc]
        exact message_ne _ _ _ (by decide) (by decide)
      | none =>
        cases x.Resolve a with
        | some e =>
          simp only [Outcome.message, Option.map_some', GoError.Error, ne_eq, Option.some.injEq]
          rw [String.append_assoc]
          exact message_ne _ _ _ (by decide) (by decide)
        | none => simp [Outcome.message]

/-- C10: if `Validate` returns nil, then afterwards `Port` is 3000 when it was 0
before the call and is unchanged otherwise, and both `queue` and `app` are
non-nil, so `Start` on the validated service does not fail with `application
is not valid`; conversely `Start` on a service whose `queue` or `app` is nil
returns that error without having added a route or started the queue. -/
theorem Validate_then_Start {Queue App : Type} (x : Externals Queue App)
    (s : Service Queue App) :
    ((Validate x s).err = none →
      (Validate x s).service.Port = (if s.Port = 0 then 3000 else s.Port) ∧
      (Validate x s).service.queue ≠ none ∧ (Validate x s).service.app ≠ none ∧
      (Start x (Validate x s).service).message ≠ some "application is not valid") ∧
    ((s.queue = none ∨ s.app = none) →
      (Start x s).err = some (.New "application is not valid") ∧
      (Start x s).message = some "application is not valid" ∧
      (Start x s).calls = [] ∧
      (Start x s).service.Port = s.Port ∧ (Start x s).service.queue = s.queue ∧
      (Start x s).service.app = s.app) := by
  constructor
  · intro h
    have key : (Validate x s).service.Port = (if s.Port = 0 then 3000 else s.Port) ∧
        (Validate x s).service.queue ≠ none ∧ (Validate x s).service.app ≠ none := by
      cases hq : s.queue with
      | some q =>
        simp only [Validate, hq] at h ⊢
        obtain ⟨h1, h2, h3⟩ := validateApp_spec x s [] h
        exact ⟨h1, by rw [h2, hq]; simp, h3⟩
      | none =>
        cases he : x.GetQueue.2 with
        | some e => simp [Validate, hq, he] at h
        | none =>
          cases hg : x.GetQueue.1 with
          | none => simp [Validate, hq, he, hg] at h
          | some q =>
            simp only [Validate, hq, he, hg] at h ⊢
            obtain ⟨h1, h2, h3⟩ := validateApp_spec x _ [.GetQueue] h
            exact ⟨h1, by rw [h2]; simp, h3⟩
    exact ⟨key.1, key.2.1, key.2.2, Start_message_ne x _ key.2.1 key.2.2⟩
  · intro h
    have hs : Start x s = ⟨some (.New "application is not valid"), s, []⟩ := by
      unfold Start
      rcases h with h | h
      · simp [h]
      · cases hq : s.queue <;> simp [h]
    rw [hs]
    simp [Outcome.message, GoError.Error]

/-- The port is defaulted and `Start` runs to the end on a service that was
empty before `Validate`; without `Validate` it is refused. -/
theorem Validate_then_Start_witness :
    (Validate goodExternals emptyService).err = none ∧
    (Validate goodExternals emptyService).service.Port = 3000 ∧
    (Start goodExternals (Validate goodExternals emptyService).service).message ≠
      some "application is not valid" ∧
    (Start goodExternals emptyService).message = some "application is not valid" ∧
    (Start goodExternals emptyService).calls = [] :=
  ⟨rfl, ((Validate_then_Start goodExternals emptyService).1 rfl).1,
    ((Validate_then_Start goodExternals emptyService).1 rfl).2.2.2,
    ((Validate_then_Start goodExternals emptyService).2 (Or.inl rfl)).2.1,
    ((Validate_then_Start goodExternals emptyService).2 (Or.inl rfl)).2.2.1⟩

end Cedar
